import Mathlib

/-!
Verification model of the liquidity-dashboard data engine
(`src/streamlit_app.py`, function `get_liquidity_data`).

Modelling conventions:
- Timestamps on the data axis are natural numbers (day numbers); calendar
  months are abstracted to uniform 30-day periods via `monthOf`.  No claim
  below depends on the length of a period.  The time-grid builder (claim
  about `pd.date_range`) uses a separate exact calendar model (`Date`,
  `daysInMonth`) because there the month lengths matter.
- A pandas Series aligned to the master index is `List (Option ℚ)`:
  `none` is NaN, positions correspond to grid positions.
- A raw fetched series is `List (ℕ × ℚ)`: (timestamp, value) pairs in
  timestamp order.  A failed market-ticker download yields an all-NaN
  column, modelled by `Option` on the raw series (`none` = failed fetch).
- FRED fetches happen inside a `try` block: any raising fetch makes the
  whole function return `None`.  Each fetch is an `Except Unit` value.
-/

namespace Liquidity

/-- Bucketing of a day-number timestamp into its (uniform, 30-day) month. -/
def monthOf (t : ℕ) : ℕ := t / 30

/-- Timestamp of the last day of month `m` (the resample label `M`). -/
def monthEndTs (m : ℕ) : ℕ := 30 * m + 29

/-- Value of the raw observation with the largest timestamp at or before
`g` (pandas `reindex(idx, method='ffill')` lookup for one new label `g`,
when no raw label collides with `g`s exact instant). -/
def lastLE (raw : List (ℕ × ℚ)) (g : ℕ) : Option ℚ :=
  ((raw.filter (fun p => p.1 ≤ g)).getLast?).map Prod.snd

/-- pandas `series.reindex(grid, method='ffill')` for a raw series whose
values are all defined: each grid label picks the last observation at or
before it (lines 90-93, 136, 143 of the source). -/
def reindexFfill (raw : List (ℕ × ℚ)) (grid : List ℕ) : List (Option ℚ) :=
  grid.map (fun g => lastLE raw g)

/-- Forward-looking reindex over a source series that may itself contain
NaN entries (a resampled intermediate): the last source label at or
before `g` contributes its value as is, NaN included.  pandas
`reindex(grid, method='ffill')` does not skip NaN source values. -/
def lastLEOpt (src : List (ℕ × Option ℚ)) (g : ℕ) : Option ℚ :=
  match (src.filter (fun p => p.1 ≤ g)).getLast? with
  | none => none
  | some p => p.2

/-- `reindex(grid, method='ffill')` of a possibly-NaN-valued source. -/
def reindexFfillOpt (src : List (ℕ × Option ℚ)) (grid : List ℕ) : List (Option ℚ) :=
  grid.map (fun g => lastLEOpt src g)

/-- Arithmetic mean of the observations of `raw` falling in month `m`;
NaN when the month holds no observation (pandas groupby-mean skipping
nothing because raw values are defined). -/
def meanOfMonth (raw : List (ℕ × ℚ)) (m : ℕ) : Option ℚ :=
  let xs := (raw.filter (fun p => monthOf p.1 == m)).map Prod.snd
  if xs = [] then none else some (xs.sum / (xs.length : ℚ))

/-- pandas `resample('M').mean()` (source line 78): one row per month
from the month of the first observation to the month of the last, month
labelled by its end, value the mean of the observations in the month,
NaN for a month without observations. -/
def resampleMean (raw : List (ℕ × ℚ)) : List (ℕ × Option ℚ) :=
  match raw.head?, raw.getLast? with
  | some f, some l =>
    (List.range (monthOf l.1 - monthOf f.1 + 1)).map
      (fun k => (monthEndTs (monthOf f.1 + k), meanOfMonth raw (monthOf f.1 + k)))
  | _, _ => []

/-- pandas `resample('M').ffill()` (source lines 96-98): one row per
month of the observation span, valued by the last observation at or
before the month-end label. -/
def resampleLastM (raw : List (ℕ × ℚ)) : List (ℕ × Option ℚ) :=
  match raw.head?, raw.getLast? with
  | some f, some l =>
    (List.range (monthOf l.1 - monthOf f.1 + 1)).map
      (fun k => (monthEndTs (monthOf f.1 + k), lastLE raw (monthEndTs (monthOf f.1 + k))))
  | _, _ => []

/-- Alignment of the central-bank-assets series (source lines 96-98):
`resample('M').ffill().reindex(grid, method='ffill')`. -/
def cbAlign (raw : List (ℕ × ℚ)) (grid : List ℕ) : List (Option ℚ) :=
  reindexFfillOpt (resampleLastM raw) grid

/-- One FX column of the batch market download (source lines 77-83):
`yf.download(...)` then `resample('M').mean()` then
`reindex(grid, method='ffill')`.  A failed ticker yields an all-NaN
column, hence an entirely undefined aligned series. -/
def fxCol (fetched : Option (List (ℕ × ℚ))) (grid : List ℕ) : List (Option ℚ) :=
  match fetched with
  | none => grid.map (fun _ => none)
  | some raw => reindexFfillOpt (resampleMean raw) grid

/-- Alignment of the separately downloaded daily BTC and MSTR closes
(source lines 132-136 and 140-143): plain
`reindex(grid, method='ffill')`, with no monthly-mean pass. -/
def dailyCol (fetched : Option (List (ℕ × ℚ))) (grid : List ℕ) : List (Option ℚ) :=
  match fetched with
  | none => grid.map (fun _ => none)
  | some raw => reindexFfill raw grid

/-- Pointwise combination of two aligned series, NaN wherever either
operand is NaN (pandas arithmetic between aligned series). -/
def zipOpt (f : ℚ → ℚ → ℚ) (a b : List (Option ℚ)) : List (Option ℚ) :=
  List.zipWith (fun x y =>
    match x, y with
    | some u, some v => some (f u v)
    | _, _ => none) a b

/-- Pointwise `a.fillna(0) + b.fillna(0)` (source lines 115 and 127):
each NaN operand contributes zero, and the sum is always defined. -/
def addF (a b : List (Option ℚ)) : List (Option ℚ) :=
  List.zipWith (fun x y => some (x.getD 0 + y.getD 0)) a b

/-- pandas `Series.shift(periods=m)` (source line 115): for `m ≥ 0` the
first `m` positions become NaN and the values move up by `m`, dropping
the tail; for `m < 0` the values move down and the last `|m|` positions
become NaN. -/
def shiftSeries (xs : List (Option ℚ)) (m : ℤ) : List (Option ℚ) :=
  if 0 ≤ m then
    List.replicate (min m.toNat xs.length) none ++ xs.take (xs.length - m.toNat)
  else
    xs.drop (-m).toNat ++ List.replicate (min (-m).toNat xs.length) none

/-- Last defined value in `xs`, with `fallback` when there is none. -/
def lastSome (fallback : Option ℚ) (xs : List (Option ℚ)) : Option ℚ :=
  xs.foldl (fun acc x => match x with | some v => some v | none => acc) fallback

/-- Helper for `ffill` carrying the last defined value seen so far. -/
def ffillAux (fallback : Option ℚ) : List (Option ℚ) → List (Option ℚ)
  | [] => []
  | none :: xs => fallback :: ffillAux fallback xs
  | some v :: xs => some v :: ffillAux (some v) xs

/-- pandas `Series.ffill()` (source line 176): every NaN is replaced by
the last defined value before it; leading NaNs stay NaN. -/
def ffill (xs : List (Option ℚ)) : List (Option ℚ) := ffillAux none xs

/-- The raw pointwise ratio `(a / b) / d` before forward-filling
(source lines 167 and 173), NaN where either input is NaN. -/
def rawQuot (a b : List (Option ℚ)) (d : ℚ) : List (Option ℚ) :=
  (zipOpt (fun p q => p / q) a b).map (Option.map (fun r => r / d))

/-- The derived-ratio metric (source lines 167-176): pointwise
`(a / b) / d` followed by a forward fill. -/
def ratioFfill (a b : List (Option ℚ)) (d : ℚ) : List (Option ℚ) :=
  ffill (rawQuot a b d)

/-- Per-ticker results of the yfinance downloads.  `none` models a
failed ticker fetch, which yfinance surfaces as an all-NaN column
rather than an exception. -/
structure MarketFetches where
  eurusd : Option (List (ℕ × ℚ))
  jpy : Option (List (ℕ × ℚ))
  cny : Option (List (ℕ × ℚ))
  btc : Option (List (ℕ × ℚ))
  mstr : Option (List (ℕ × ℚ))

/-- The seven successfully fetched FRED series (source lines 90-98). -/
structure FredData where
  m2us : List (ℕ × ℚ)
  m2eu : List (ℕ × ℚ)
  m2jp : List (ℕ × ℚ)
  m2cn : List (ℕ × ℚ)
  cbfed : List (ℕ × ℚ)
  cbecb : List (ℕ × ℚ)
  cbboj : List (ℕ × ℚ)

/-- Outcome of each individual FRED fetch; `Except.error ()` models a
raised exception inside the `try` block of source lines 86-101. -/
structure FredFetches where
  m2us : Except Unit (List (ℕ × ℚ))
  m2eu : Except Unit (List (ℕ × ℚ))
  m2jp : Except Unit (List (ℕ × ℚ))
  m2cn : Except Unit (List (ℕ × ℚ))
  cbfed : Except Unit (List (ℕ × ℚ))
  cbecb : Except Unit (List (ℕ × ℚ))
  cbboj : Except Unit (List (ℕ × ℚ))

/-- The `try` block of source lines 86-101: all seven fetches must
succeed, any raising fetch aborts and the caller receives `None`. -/
def runFred (f : FredFetches) : Option FredData :=
  match f.m2us, f.m2eu, f.m2jp, f.m2cn, f.cbfed, f.cbecb, f.cbboj with
  | .ok a, .ok b, .ok c, .ok d, .ok e, .ok g, .ok h => some ⟨a, b, c, d, e, g, h⟩
  | _, _, _, _, _, _, _ => none

/-- Some fetch on the FRED path raised. -/
def fredFailed (f : FredFetches) : Prop :=
  f.m2us = .error () ∨ f.m2eu = .error () ∨ f.m2jp = .error () ∨
    f.m2cn = .error () ∨ f.cbfed = .error () ∨ f.cbecb = .error () ∨
    f.cbboj = .error ()

/-- `us_val = m2_us / 1000` (source line 107). -/
def usValCol (grid : List ℕ) (fd : FredData) : List (Option ℚ) :=
  (reindexFfill fd.m2us grid).map (Option.map (fun v => v / 1000))

/-- `eu_val = (m2_eu * fx_eu) / 1_000_000` (source line 110). -/
def euValCol (grid : List ℕ) (mkt : MarketFetches) (fd : FredData) : List (Option ℚ) :=
  zipOpt (fun v f => v * f / 1000000) (reindexFfill fd.m2eu grid) (fxCol mkt.eurusd grid)

/-- `jp_val = (m2_jp / fx_jp) / 1_000_000` (source line 111). -/
def jpValCol (grid : List ℕ) (mkt : MarketFetches) (fd : FredData) : List (Option ℚ) :=
  zipOpt (fun v f => v / f / 1000000) (reindexFfill fd.m2jp grid) (fxCol mkt.jpy grid)

/-- `cn_val = (m2_cn * fx_cn) / 1_000_000` (source line 112). -/
def cnValCol (grid : List ℕ) (mkt : MarketFetches) (fd : FredData) : List (Option ℚ) :=
  zipOpt (fun v f => v * f / 1000000) (reindexFfill fd.m2cn grid) (fxCol mkt.cny grid)

/-- The pre-shift money-supply composite
`us_val.fillna(0) + eu_val.fillna(0) + jp_val.fillna(0) + cn_val.fillna(0)`
(source line 115). -/
def m2SumCol (grid : List ℕ) (mkt : MarketFetches) (fd : FredData) : List (Option ℚ) :=
  addF (addF (addF (usValCol grid fd) (euValCol grid mkt fd)) (jpValCol grid mkt fd))
    (cnValCol grid mkt fd)

/-- `df['Global_M2']`: the composite sum shifted by `m` grid steps
(source line 115). -/
def globalM2Col (grid : List ℕ) (mkt : MarketFetches) (fd : FredData) (m : ℤ) :
    List (Option ℚ) :=
  shiftSeries (m2SumCol grid mkt fd) m

/-- `fed_assets = cb_fed / 1_000_000` (source line 119). -/
def fedCol (grid : List ℕ) (fd : FredData) : List (Option ℚ) :=
  (cbAlign fd.cbfed grid).map (Option.map (fun v => v / 1000000))

/-- `ecb_assets = (cb_ecb * fx_eu) / 1_000_000` (source line 122). -/
def ecbCol (grid : List ℕ) (mkt : MarketFetches) (fd : FredData) : List (Option ℚ) :=
  zipOpt (fun v f => v * f / 1000000) (cbAlign fd.cbecb grid) (fxCol mkt.eurusd grid)

/-- `boj_assets = (cb_boj * 0.0001) / fx_jp` (source line 125). -/
def bojCol (grid : List ℕ) (mkt : MarketFetches) (fd : FredData) : List (Option ℚ) :=
  zipOpt (fun v f => v * (1 / 10000) / f) (cbAlign fd.cbboj grid) (fxCol mkt.jpy grid)

/-- `df['Global_Assets']` (source line 127): sum of the three
zero-filled central-bank components, never shifted. -/
def assetsCol (grid : List ℕ) (mkt : MarketFetches) (fd : FredData) : List (Option ℚ) :=
  addF (addF (fedCol grid fd) (ecbCol grid mkt fd)) (bojCol grid mkt fd)

/-- `df['BTC']` (source lines 132-136). -/
def btcCol (grid : List ℕ) (mkt : MarketFetches) : List (Option ℚ) :=
  dailyCol mkt.btc grid

/-- `df['MSTR_Price']` (source lines 140-143). -/
def mstrPriceCol (grid : List ℕ) (mkt : MarketFetches) : List (Option ℚ) :=
  dailyCol mkt.mstr grid

/-- `df['MSTR_Ratio'] = df['MSTR_Price'] / df['BTC']` (source line 167). -/
def mstrQuotCol (grid : List ℕ) (mkt : MarketFetches) : List (Option ℚ) :=
  zipOpt (fun p q => p / q) (mstrPriceCol grid mkt) (btcCol grid mkt)

/-- `df['MSTR_MNAV']` (source lines 173-176): the ratio divided by 100
and forward-filled. -/
def mnavCol (grid : List ℕ) (mkt : MarketFetches) : List (Option ℚ) :=
  ratioFfill (mstrPriceCol grid mkt) (btcCol grid mkt) 100

/-- One row of the final DataFrame. -/
structure Row where
  ts : ℕ
  m2 : Option ℚ
  assets : Option ℚ
  btc : Option ℚ
  mstrPrice : Option ℚ
  mstrQuot : Option ℚ
  mnav : Option ℚ
deriving DecidableEq

/-- The assembled DataFrame before the final `dropna`. -/
def buildRows (grid : List ℕ) (mkt : MarketFetches) (fd : FredData) (m : ℤ) : List Row :=
  (List.range grid.length).map (fun i =>
    { ts := grid.getD i 0
      m2 := (globalM2Col grid mkt fd m).getD i none
      assets := (assetsCol grid mkt fd).getD i none
      btc := (btcCol grid mkt).getD i none
      mstrPrice := (mstrPriceCol grid mkt).getD i none
      mstrQuot := (mstrQuotCol grid mkt).getD i none
      mnav := (mnavCol grid mkt).getD i none })

/-- `df.dropna(subset=['Global_M2', 'Global_Assets', 'MSTR_MNAV'],
how='all')` (source line 179): a row survives when at least one of the
three subset columns is defined. -/
def dropIncomplete (rows : List Row) : List Row :=
  rows.filter (fun r => r.m2.isSome || r.assets.isSome || r.mnav.isSome)

/-- The data engine `get_liquidity_data` (source lines 65-179), as a
function of the canonical grid, the market fetch results, the FRED
fetch results and the shift parameter. -/
def getLiquidityData (grid : List ℕ) (mkt : MarketFetches) (f : FredFetches) (m : ℤ) :
    Option (List Row) :=
  match runFred f with
  | none => none
  | some fd => some (dropIncomplete (buildRows grid mkt fd m))

/-- Gregorian leap-year rule (as implemented by pandas timestamps). -/
def isLeap (y : ℕ) : Bool :=
  (y % 4 == 0 && y % 100 != 0) || y % 400 == 0

/-- Number of days of absolute month `m` (`m = 12 * year + month0`). -/
def daysInMonth (m : ℕ) : ℕ :=
  let mo := m % 12
  if mo = 1 then (if isLeap (m / 12) then 29 else 28)
  else if mo = 3 ∨ mo = 5 ∨ mo = 8 ∨ mo = 10 then 30 else 31

/-- A calendar date: absolute month index and 1-based day of month.
The time of day is dropped: the start, the end and every generated grid
point of `pd.date_range` share the time of day of `now`, so it never
decides a comparison in the grid builder. -/
structure Date where
  month : ℕ
  day : ℕ
deriving DecidableEq

/-- Date comparison, both dates carrying the same time of day. -/
def dateLE (a b : Date) : Bool :=
  a.month < b.month || (a.month == b.month && a.day ≤ b.day)

/-- Strict date comparison. -/
def dateLT (a b : Date) : Bool :=
  a.month < b.month || (a.month == b.month && a.day < b.day)

/-- The month-end date of absolute month `m` (a `freq='M'` label). -/
def monthEndDate (m : ℕ) : Date :=
  ⟨m, daysInMonth m⟩

/-- `pd.Timestamp.now() - pd.DateOffset(years=y)` (source line 66):
same calendar day `y` years earlier, clamped to the month length. -/
def yearsAgo (now : Date) (y : ℕ) : Date :=
  ⟨now.month - 12 * y, min now.day (daysInMonth (now.month - 12 * y))⟩

/-- `pd.date_range(start, stop, freq='M')` (source line 72): all
month-end dates lying in `[start, stop]`, in order. -/
def dateRangeM (start stop : Date) : List Date :=
  ((List.range (stop.month + 1 - start.month)).map
      (fun k => monthEndDate (start.month + k))).filter
    (fun e => dateLE start e && dateLE e stop)

/-- The master monthly index of source lines 66-73. -/
def masterIndex (now : Date) (y : ℕ) : List Date :=
  dateRangeM (yearsAgo now y) now

/-! ### Generic indexing helpers -/

lemma getD_map_of_lt {α β : Type} (f : α → β) (l : List α) (i : ℕ) (da : α) (db : β)
    (h : i < l.length) : (l.map f).getD i db = f (l.getD i da) := by
  rw [List.getD_eq_getElem _ _ (by simpa using h), List.getD_eq_getElem _ _ h,
    List.getElem_map]

lemma getD_zipWith_of_lt {α β γ : Type} (f : α → β → γ) (a : List α) (b : List β)
    (i : ℕ) (da : α) (db : β) (dc : γ) (ha : i < a.length) (hb : i < b.length) :
    (List.zipWith f a b).getD i dc = f (a.getD i da) (b.getD i db) := by
  rw [List.getD_eq_getElem?_getD, List.getElem?_zipWith,
    List.getElem?_eq_getElem ha, List.getElem?_eq_getElem hb,
    List.getD_eq_getElem _ _ ha, List.getD_eq_getElem _ _ hb]
  rfl

lemma getD_range_map {α : Type} (f : ℕ → α) (n i : ℕ) (d : α) (h : i < n) :
    ((List.range n).map f).getD i d = f i := by
  rw [List.getD_eq_getElem _ _ (by simpa using h), List.getElem_map, List.getElem_range]

lemma sorted_getD_le (l : List ℕ) (h : List.Sorted (· ≤ ·) l) (i j : ℕ)
    (hij : i ≤ j) (hj : j < l.length) : l.getD i 0 ≤ l.getD j 0 := by
  rcases eq_or_lt_of_le hij with rfl | hlt
  · exact le_refl _
  · have hi : i < l.length := hlt.trans hj
    rw [List.getD_eq_getElem _ _ hi, List.getD_eq_getElem _ _ hj]
    exact List.pairwise_iff_get.mp h ⟨i, hi⟩ ⟨j, hj⟩ hlt

lemma mem_of_getLast?_eq {α : Type} (l : List α) (a : α) (h : l.getLast? = some a) :
    a ∈ l := by
  induction l with
  | nil => simp at h
  | cons x xs ih =>
    cases xs with
    | nil => simp_all
    | cons y ys =>
      rw [List.getLast?_cons_cons] at h
      exact List.mem_cons_of_mem _ (ih h)

lemma getLast?_ts_le {β : Type} (xs : List (ℕ × β))
    (hs : List.Pairwise (fun p q : ℕ × β => p.1 ≤ q.1) xs) (p : ℕ × β)
    (hp : xs.getLast? = some p) : ∀ q ∈ xs, q.1 ≤ p.1 := by
  induction xs with
  | nil => simp at hp
  | cons x xs ih =>
    cases xs with
    | nil =>
      simp only [List.getLast?_singleton, Option.some.injEq] at hp
      subst hp
      simp
    | cons y ys =>
      rw [List.getLast?_cons_cons] at hp
      intro q hq
      rcases List.mem_cons.mp hq with rfl | hq2
      · exact (List.pairwise_cons.mp hs).1 p (mem_of_getLast?_eq _ _ hp)
      · exact ih (List.pairwise_cons.mp hs).2 hp q hq2

/-! ### Length lemmas for the aligned columns -/

lemma length_reindexFfill (raw : List (ℕ × ℚ)) (grid : List ℕ) :
    (reindexFfill raw grid).length = grid.length := by
  simp [reindexFfill]

lemma length_reindexFfillOpt (src : List (ℕ × Option ℚ)) (grid : List ℕ) :
    (reindexFfillOpt src grid).length = grid.length := by
  simp [reindexFfillOpt]

lemma length_fxCol (o : Option (List (ℕ × ℚ))) (grid : List ℕ) :
    (fxCol o grid).length = grid.length := by
  cases o <;> simp [fxCol, reindexFfillOpt]

lemma length_dailyCol (o : Option (List (ℕ × ℚ))) (grid : List ℕ) :
    (dailyCol o grid).length = grid.length := by
  cases o <;> simp [dailyCol, reindexFfill]

lemma length_cbAlign (raw : List (ℕ × ℚ)) (grid : List ℕ) :
    (cbAlign raw grid).length = grid.length := by
  simp [cbAlign, reindexFfillOpt]

lemma length_zipOpt (f : ℚ → ℚ → ℚ) (a b : List (Option ℚ)) :
    (zipOpt f a b).length = min a.length b.length := by
  simp [zipOpt]

lemma length_addF (a b : List (Option ℚ)) :
    (addF a b).length = min a.length b.length := by
  simp [addF]

lemma length_shiftSeries (xs : List (Option ℚ)) (m : ℤ) :
    (shiftSeries xs m).length = xs.length := by
  unfold shiftSeries
  split <;> simp <;> omega

lemma ffillAux_length (fb : Option ℚ) (xs : List (Option ℚ)) :
    (ffillAux fb xs).length = xs.length := by
  induction xs generalizing fb with
  | nil => rfl
  | cons x xs ih => cases x <;> simp [ffillAux, ih]

lemma length_ffill (xs : List (Option ℚ)) : (ffill xs).length = xs.length :=
  ffillAux_length none xs

lemma length_rawQuot (a b : List (Option ℚ)) (d : ℚ) :
    (rawQuot a b d).length = min a.length b.length := by
  simp [rawQuot, length_zipOpt]

lemma length_ratioFfill (a b : List (Option ℚ)) (d : ℚ) :
    (ratioFfill a b d).length = min a.length b.length := by
  simp [ratioFfill, length_ffill, length_rawQuot]

lemma length_usValCol (grid : List ℕ) (fd : FredData) :
    (usValCol grid fd).length = grid.length := by
  simp [usValCol, reindexFfill]

lemma length_euValCol (grid : List ℕ) (mkt : MarketFetches) (fd : FredData) :
    (euValCol grid mkt fd).length = grid.length := by
  simp [euValCol, length_zipOpt, length_reindexFfill, length_fxCol]

lemma length_jpValCol (grid : List ℕ) (mkt : MarketFetches) (fd : FredData) :
    (jpValCol grid mkt fd).length = grid.length := by
  simp [jpValCol, length_zipOpt, length_reindexFfill, length_fxCol]

lemma length_cnValCol (grid : List ℕ) (mkt : MarketFetches) (fd : FredData) :
    (cnValCol grid mkt fd).length = grid.length := by
  simp [cnValCol, length_zipOpt, length_reindexFfill, length_fxCol]

lemma length_m2SumCol (grid : List ℕ) (mkt : MarketFetches) (fd : FredData) :
    (m2SumCol grid mkt fd).length = grid.length := by
  simp [m2SumCol, length_addF, length_usValCol, length_euValCol, length_jpValCol,
    length_cnValCol]

lemma length_fedCol (grid : List ℕ) (fd : FredData) :
    (fedCol grid fd).length = grid.length := by
  simp [fedCol, length_cbAlign]

lemma length_ecbCol (grid : List ℕ) (mkt : MarketFetches) (fd : FredData) :
    (ecbCol grid mkt fd).length = grid.length := by
  simp [ecbCol, length_zipOpt, length_cbAlign, length_fxCol]

lemma length_bojCol (grid : List ℕ) (mkt : MarketFetches) (fd : FredData) :
    (bojCol grid mkt fd).length = grid.length := by
  simp [bojCol, length_zipOpt, length_cbAlign, length_fxCol]

lemma length_assetsCol (grid : List ℕ) (mkt : MarketFetches) (fd : FredData) :
    (assetsCol grid mkt fd).length = grid.length := by
  simp [assetsCol, length_addF, length_fedCol, length_ecbCol, length_bojCol]

/-! ### Forward-fill characterization -/

lemma lastSome_cons (fb x : Option ℚ) (l : List (Option ℚ)) :
    lastSome fb (x :: l) = lastSome (match x with | some v => some v | none => fb) l :=
  rfl

lemma lastSome_concat_none (fb : Option ℚ) (l : List (Option ℚ)) :
    lastSome fb (l ++ [none]) = lastSome fb l := by
  simp [lastSome, List.foldl_append]

lemma lastSome_concat_some (fb : Option ℚ) (l : List (Option ℚ)) (v : ℚ) :
    lastSome fb (l ++ [some v]) = some v := by
  simp [lastSome, List.foldl_append]

lemma ffillAux_getD (xs : List (Option ℚ)) (fb : Option ℚ) (i : ℕ)
    (h : i < xs.length) :
    (ffillAux fb xs).getD i none = lastSome fb (xs.take (i + 1)) := by
  induction xs generalizing fb i with
  | nil => simp at h
  | cons x xs ih =>
    cases x with
    | none =>
      cases i with
      | zero => simp [ffillAux, lastSome]
      | succ j =>
        have hj : j < xs.length := by simpa using h
        simpa [ffillAux, lastSome_cons] using ih fb j hj
    | some v =>
      cases i with
      | zero => simp [ffillAux, lastSome]
      | succ j =>
        have hj : j < xs.length := by simpa using h
        simpa [ffillAux, lastSome_cons] using ih (some v) j hj

lemma ffill_getD (xs : List (Option ℚ)) (i : ℕ) (h : i < xs.length) :
    (ffill xs).getD i none = lastSome none (xs.take (i + 1)) :=
  ffillAux_getD xs none i h

/-! ### More indexing helpers -/

lemma getD_append_left' {α : Type} (l1 l2 : List α) (i : ℕ) (d : α)
    (h : i < l1.length) : (l1 ++ l2).getD i d = l1.getD i d := by
  rw [List.getD_eq_getElem?_getD, List.getD_eq_getElem?_getD, List.getElem?_append,
    if_pos h]

lemma getD_append_right' {α : Type} (l1 l2 : List α) (i : ℕ) (d : α)
    (h : l1.length ≤ i) : (l1 ++ l2).getD i d = l2.getD (i - l1.length) d := by
  rw [List.getD_eq_getElem?_getD, List.getD_eq_getElem?_getD, List.getElem?_append,
    if_neg (by omega)]

lemma getD_take' {α : Type} (xs : List α) (k i : ℕ) (d : α) (h : i < k) :
    (xs.take k).getD i d = xs.getD i d := by
  by_cases h2 : i < xs.length
  · rw [List.getD_eq_getElem _ _ (by simp; omega), List.getElem_take,
      List.getD_eq_getElem _ _ h2]
  · rw [List.getD_eq_default _ _ (by simp; omega), List.getD_eq_default _ _ (by omega)]

lemma getD_drop' {α : Type} (xs : List α) (k i : ℕ) (d : α) :
    (xs.drop k).getD i d = xs.getD (k + i) d := by
  by_cases h : k + i < xs.length
  · rw [List.getD_eq_getElem _ _ (by simp; omega), List.getElem_drop,
      List.getD_eq_getElem _ _ h]
  · rw [List.getD_eq_default _ _ (by simp; omega), List.getD_eq_default _ _ (by omega)]

lemma getD_replicate' {α : Type} (a : α) (n i : ℕ) (d : α) (h : i < n) :
    (List.replicate n a).getD i d = a := by
  rw [List.getD_eq_getElem _ _ (by simp [h]), List.getElem_replicate]

lemma zipOpt_map_none (f : ℚ → ℚ → ℚ) (a : List (Option ℚ)) (grid : List ℕ)
    (h : a.length = grid.length) :
    zipOpt f a (grid.map (fun _ => none)) = grid.map (fun _ => none) := by
  induction a generalizing grid with
  | nil => cases grid with
    | nil => rfl
    | cons g gs => simp at h
  | cons x xs ih =>
    cases grid with
    | nil => simp at h
    | cons g gs =>
      have h' : xs.length = gs.length := by simpa using h
      have ihg := ih gs h'
      cases x <;> simp only [zipOpt, List.map_cons, List.zipWith_cons_cons] at ihg ⊢ <;>
        rw [ihg]

lemma getD_addF (a b : List (Option ℚ)) (i : ℕ) (ha : i < a.length)
    (hb : i < b.length) :
    (addF a b).getD i none = some ((a.getD i none).getD 0 + (b.getD i none).getD 0) := by
  simp only [addF]
  exact getD_zipWith_of_lt _ a b i none none none ha hb

/-! ### Timestamp bound for the resampled market intermediate -/

lemma resampleMean_ts_ge (raw : List (ℕ × ℚ)) (q : ℕ × Option ℚ)
    (hq : q ∈ resampleMean raw) : ∃ p ∈ raw, p.1 ≤ q.1 := by
  unfold resampleMean at hq
  rcases hf : raw.head? with _ | f <;> rw [hf] at hq
  · simp at hq
  · rcases hl : raw.getLast? with _ | l <;> rw [hl] at hq
    · simp at hq
    · simp only [List.mem_map, List.mem_range] at hq
      obtain ⟨k, hk, rfl⟩ := hq
      refine ⟨f, List.mem_of_mem_head? hf, ?_⟩
      have hdm : 30 * (f.1 / 30) + f.1 % 30 = f.1 := Nat.div_add_mod f.1 30
      have hlt : f.1 % 30 < 30 := Nat.mod_lt _ (by omega)
      simp only [monthEndTs, monthOf]
      omega

/-! ### Monotonicity of the carry-forward lookups -/

lemma lastLE_isSome_mono (raw : List (ℕ × ℚ)) (t u : ℕ) (h : t ≤ u)
    (hd : (lastLE raw t).isSome = true) : (lastLE raw u).isSome = true := by
  simp only [lastLE, Option.isSome_map'] at hd ⊢
  rw [List.getLast?_isSome] at hd ⊢
  obtain ⟨p, hp⟩ := List.exists_mem_of_ne_nil _ hd
  rw [List.mem_filter] at hp
  obtain ⟨h1, h2⟩ := hp
  rw [decide_eq_true_eq] at h2
  apply List.ne_nil_of_mem (a := p)
  rw [List.mem_filter]
  refine ⟨h1, ?_⟩
  rw [decide_eq_true_eq]
  omega

lemma lastLEOpt_isSome_mono (src : List (ℕ × Option ℚ))
    (hsort : List.Pairwise (fun p q : ℕ × Option ℚ => p.1 ≤ q.1) src)
    (hmono : ∀ p ∈ src, ∀ q ∈ src, p.1 ≤ q.1 → p.2.isSome = true → q.2.isSome = true)
    (t u : ℕ) (htu : t ≤ u)
    (hd : (lastLEOpt src t).isSome = true) : (lastLEOpt src u).isSome = true := by
  rcases hlast : (src.filter (fun p => p.1 ≤ t)).getLast? with _ | p
  · simp only [lastLEOpt, hlast] at hd
    simp at hd
  · simp only [lastLEOpt, hlast] at hd
    have hpmem := mem_of_getLast?_eq _ _ hlast
    rw [List.mem_filter] at hpmem
    obtain ⟨hpsrc, hpt⟩ := hpmem
    rw [decide_eq_true_eq] at hpt
    rcases hlast2 : (src.filter (fun p => p.1 ≤ u)).getLast? with _ | q
    · rw [List.getLast?_eq_none_iff] at hlast2
      exfalso
      have : p ∈ src.filter (fun p => p.1 ≤ u) := by
        rw [List.mem_filter]
        refine ⟨hpsrc, ?_⟩
        rw [decide_eq_true_eq]
        omega
      rw [hlast2] at this
      simp at this
    · simp only [lastLEOpt, hlast2]
      have hqmem := mem_of_getLast?_eq _ _ hlast2
      rw [List.mem_filter] at hqmem
      obtain ⟨hqsrc, hqu⟩ := hqmem
      have hpq : p.1 ≤ q.1 := by
        apply getLast?_ts_le _ (List.Pairwise.filter _ hsort) q hlast2
        rw [List.mem_filter]
        refine ⟨hpsrc, ?_⟩
        rw [decide_eq_true_eq]
        omega
      exact hmono p hpsrc q hqsrc hpq hd

lemma resampleLastM_sorted (raw : List (ℕ × ℚ)) :
    List.Pairwise (fun p q : ℕ × Option ℚ => p.1 ≤ q.1) (resampleLastM raw) := by
  unfold resampleLastM
  rcases raw.head? with _ | f
  · simp
  · rcases raw.getLast? with _ | l
    · simp
    · apply List.Pairwise.map _ _ (List.pairwise_lt_range _)
      intro a b hab
      simp only [monthEndTs]
      omega

lemma resampleLastM_value (raw : List (ℕ × ℚ)) (q : ℕ × Option ℚ)
    (hq : q ∈ resampleLastM raw) :
    q.2 = lastLE raw q.1 ∧ ∃ p ∈ raw, p.1 ≤ q.1 := by
  unfold resampleLastM at hq
  rcases hf : raw.head? with _ | f <;> rw [hf] at hq
  · simp at hq
  · rcases hl : raw.getLast? with _ | l <;> rw [hl] at hq
    · simp at hq
    · simp only [List.mem_map, List.mem_range] at hq
      obtain ⟨k, hk, rfl⟩ := hq
      refine ⟨rfl, f, List.mem_of_mem_head? hf, ?_⟩
      have hdm : 30 * (f.1 / 30) + f.1 % 30 = f.1 := Nat.div_add_mod f.1 30
      have hlt : f.1 % 30 < 30 := Nat.mod_lt _ (by omega)
      simp only [monthEndTs, monthOf]
      omega

/-! ### Claim C1: aggregation with zero substitution -/

/-- C1 (amended): at every grid point the aggregate of the component
series is the sum of the components with zero substituted for each
individually-undefined component; the composite value is therefore
defined at every grid point, also when every component is undefined. -/
theorem claim_C1_aggregate (a b c d : List (Option ℚ)) (i : ℕ)
    (ha : i < a.length) (hb : i < b.length) (hc : i < c.length) (hd : i < d.length) :
    (addF (addF (addF a b) c) d).getD i none =
      some ((a.getD i none).getD 0 + (b.getD i none).getD 0 +
        (c.getD i none).getD 0 + (d.getD i none).getD 0) := by
  have h1 : i < (addF a b).length := by rw [length_addF]; omega
  have h2 : i < (addF (addF a b) c).length := by rw [length_addF, length_addF]; omega
  rw [getD_addF _ _ i h2 hd, getD_addF _ _ i h1 hc, getD_addF _ _ i ha hb]
  rfl

/-- C1 witness: components `[5, undefined, 3, undefined]` aggregate to 8. -/
theorem claim_C1_aggregate_w :
    (addF (addF (addF [some (5:ℚ)] [none]) [some 3]) [none]).getD 0 none = some 8 := by
  have h := claim_C1_aggregate [some (5:ℚ)] [none] [some 3] [none] 0
    (by decide) (by decide) (by decide) (by decide)
  rw [h]
  norm_num

/-- C1 counterexample: with every component undefined the code yields a
defined composite value 0, not an undefined point as the claim states. -/
theorem claim_C1_cx :
    addF [(none : Option ℚ)] [none] = [some 0] ∧ some (0:ℚ) ≠ none := by
  constructor
  · simp [addF]
  · simp

/-! ### Claim C4: the final row filter -/

/-- C4 (amended): the assembler keeps exactly the rows where at least one
of the money-supply composite, the central-bank-assets composite and the
derived MNAV column is defined, so it drops exactly the rows where all
three are undefined; surviving rows keep all their columns. -/
theorem claim_C4_drop_rows (rows : List Row) (r : Row) :
    r ∈ dropIncomplete rows ↔
      r ∈ rows ∧ (r.m2.isSome = true ∨ r.assets.isSome = true ∨ r.mnav.isSome = true) := by
  simp [dropIncomplete, List.mem_filter, Bool.or_eq_true, or_assoc]

/-- C4 counterexample: a row whose two primary composites are both
undefined but whose MNAV value is defined is retained by the code,
while the claim says any row with both primaries undefined is dropped. -/
theorem claim_C4_cx :
    (Row.mk 0 none none none none none (some 2)).m2 = none ∧
    (Row.mk 0 none none none none none (some 2)).assets = none ∧
    dropIncomplete [Row.mk 0 none none none none none (some 2)] =
      [Row.mk 0 none none none none none (some 2)] := by
  refine ⟨rfl, rfl, ?_⟩
  simp [dropIncomplete]

/-! ### Claim C5: the temporal shift -/

/-- C5: `shift` with 0 is the identity, and for any `m` the shifted
series holds at position `i` the original value at position `i - m`
when that is a valid grid position and is undefined otherwise, so
values shifted beyond either end of the grid become undefined. -/
theorem claim_C5_shift (xs : List (Option ℚ)) (m : ℤ) (i : ℕ) (hi : i < xs.length) :
    shiftSeries xs 0 = xs ∧
    (shiftSeries xs m).getD i none =
      (if 0 ≤ (i : ℤ) - m ∧ (i : ℤ) - m < (xs.length : ℤ)
        then xs.getD ((i : ℤ) - m).toNat none else none) := by
  constructor
  · simp [shiftSeries]
  · rcases le_or_lt 0 m with hm | hm
    · have hmp : ((m.toNat : ℤ)) = m := Int.toNat_of_nonneg hm
      simp only [shiftSeries, if_pos hm]
      by_cases hip : i < m.toNat
      · rw [getD_append_left' _ _ i none (by simp; omega),
          getD_replicate' _ _ _ _ (by simp; omega), if_neg (by omega)]
      · rw [getD_append_right' _ _ i none (by simp; omega)]
        have hidx : i - (List.replicate (min m.toNat xs.length) (none : Option ℚ)).length
            = i - m.toNat := by simp; omega
        rw [hidx, getD_take' _ _ _ _ (by omega), if_pos (by omega)]
        have : ((i : ℤ) - m).toNat = i - m.toNat := by omega
        rw [this]
    · have hmq : (((-m).toNat : ℤ)) = -m := Int.toNat_of_nonneg (by omega)
      simp only [shiftSeries, if_neg (not_le.mpr hm)]
      by_cases hiq : i < xs.length - (-m).toNat
      · rw [getD_append_left' _ _ i none (by simp; omega), getD_drop',
          if_pos (by omega)]
        have : ((i : ℤ) - m).toNat = (-m).toNat + i := by omega
        rw [this]
      · rw [getD_append_right' _ _ i none (by simp; omega)]
        have h2 : i - (xs.drop (-m).toNat).length < min (-m).toNat xs.length := by
          simp; omega
        rw [getD_replicate' _ _ _ _ h2, if_neg (by omega)]

/-- C5 witness: shifting `[1, 2, 3]` by one step is the identity at 0 and
moves the first value to position 1. -/
theorem claim_C5_shift_w :
    shiftSeries [some (1:ℚ), some 2, some 3] 0 = [some (1:ℚ), some 2, some 3] ∧
    (shiftSeries [some (1:ℚ), some 2, some 3] 1).getD 1 none =
      (if 0 ≤ (1 : ℤ) - 1 ∧ (1 : ℤ) - 1 < (([some (1:ℚ), some 2, some 3].length : ℕ) : ℤ)
        then [some (1:ℚ), some 2, some 3].getD ((1 : ℤ) - 1).toNat none else none) := by
  have h := claim_C5_shift [some (1:ℚ), some 2, some 3] 1 1 (by decide)
  exact ⟨h.1, h.2⟩

/-! ### Claim C2: monotonic fill and no back-fill -/

/-- C2 (amended): for every AlignedSeries produced by last-observation
carry-forward alignment — both the direct reindex used for the M2 macro
series and the daily BTC/MSTR prices, and the monthly-last resample plus
reindex used for the central-bank-assets series — a defined position
stays defined at every later grid position, and grid points strictly
before the first raw observation are undefined; the mean-resampled
market path (FX rates) also never back-fills before the first
observation, but it does not satisfy monotonic fill (see the
counterexample: an empty period after the first observation yields an
undefined point after a defined one). -/
theorem claim_C2_monotone_fill (raw : List (ℕ × ℚ)) (grid : List ℕ)
    (hs : List.Sorted (· ≤ ·) grid) (i j k : ℕ) (hij : i ≤ j) (hj : j < grid.length)
    (hk : k < grid.length)
    (hdef : ((reindexFfill raw grid).getD i none).isSome = true)
    (hbefore : ∀ p ∈ raw, grid.getD k 0 < p.1)
    (rawC : List (ℕ × ℚ)) (gridC : List ℕ) (hsC : List.Sorted (· ≤ ·) gridC)
    (iC jC kC : ℕ) (hijC : iC ≤ jC) (hjC : jC < gridC.length) (hkC : kC < gridC.length)
    (hdefC : ((cbAlign rawC gridC).getD iC none).isSome = true)
    (hbeforeC : ∀ p ∈ rawC, gridC.getD kC 0 < p.1)
    (raw2 : List (ℕ × ℚ)) (grid2 : List ℕ) (k2 : ℕ) (hk2 : k2 < grid2.length)
    (hbefore2 : ∀ p ∈ raw2, grid2.getD k2 0 < p.1) :
    ((reindexFfill raw grid).getD j none).isSome = true ∧
    (reindexFfill raw grid).getD k none = none ∧
    ((cbAlign rawC gridC).getD jC none).isSome = true ∧
    (cbAlign rawC gridC).getD kC none = none ∧
    (fxCol (some raw2) grid2).getD k2 none = none := by
  have hi : i < grid.length := by
    by_contra hni
    rw [List.getD_eq_default _ _ (by rw [length_reindexFfill]; omega)] at hdef
    simp at hdef
  have hiC : iC < gridC.length := by
    by_contra hni
    rw [List.getD_eq_default _ _ (by rw [length_cbAlign]; omega)] at hdefC
    simp at hdefC
  refine ⟨?_, ?_, ?_, ?_, ?_⟩
  · simp only [reindexFfill] at hdef ⊢
    rw [getD_map_of_lt _ _ _ 0 none hi] at hdef
    rw [getD_map_of_lt _ _ _ 0 none hj]
    exact lastLE_isSome_mono raw _ _ (sorted_getD_le grid hs i j hij hj) hdef
  · simp only [reindexFfill]
    rw [getD_map_of_lt _ _ _ 0 none hk]
    simp only [lastLE]
    have hnil : raw.filter (fun p => p.1 ≤ grid.getD k 0) = [] := by
      apply List.filter_eq_nil_iff.mpr
      intro a ha
      have := hbefore a ha
      simp only [decide_eq_true_eq]
      omega
    rw [hnil]
    rfl
  · simp only [cbAlign, reindexFfillOpt] at hdefC ⊢
    rw [getD_map_of_lt _ _ _ 0 none hiC] at hdefC
    rw [getD_map_of_lt _ _ _ 0 none hjC]
    apply lastLEOpt_isSome_mono (resampleLastM rawC) (resampleLastM_sorted rawC) ?_ _ _
      (sorted_getD_le gridC hsC iC jC hijC hjC) hdefC
    intro p hp q hq hpq hps
    obtain ⟨hpval, -⟩ := resampleLastM_value rawC p hp
    obtain ⟨hqval, -⟩ := resampleLastM_value rawC q hq
    rw [hqval]
    rw [hpval] at hps
    exact lastLE_isSome_mono rawC _ _ hpq hps
  · simp only [cbAlign, reindexFfillOpt]
    rw [getD_map_of_lt _ _ _ 0 none hkC]
    simp only [lastLEOpt]
    have hnil : (resampleLastM rawC).filter (fun p => p.1 ≤ gridC.getD kC 0) = [] := by
      apply List.filter_eq_nil_iff.mpr
      intro q hq
      obtain ⟨-, p0, hp0, hp0le⟩ := resampleLastM_value rawC q hq
      have := hbeforeC p0 hp0
      simp only [decide_eq_true_eq]
      omega
    rw [hnil]
    rfl
  · simp only [fxCol, reindexFfillOpt]
    rw [getD_map_of_lt _ _ _ 0 none hk2]
    simp only [lastLEOpt]
    have hnil : (resampleMean raw2).filter (fun p => p.1 ≤ grid2.getD k2 0) = [] := by
      apply List.filter_eq_nil_iff.mpr
      intro q hq
      obtain ⟨p0, hp0, hp0le⟩ := resampleMean_ts_ge raw2 q hq
      have := hbefore2 p0 hp0
      simp only [decide_eq_true_eq]
      omega
    rw [hnil]
    rfl

/-- C2 witness: one observation at time 35.  On the direct-reindex path
with grid `[10, 40, 70]`, position 1 is defined, hence position 2 is
defined and position 0 (before the observation) stays undefined; on the
central-bank path with grid `[10, 59, 70]`, position 1 is defined,
hence position 2 is defined and position 0 stays undefined; the
mean-resampled path never back-fills either. -/
theorem claim_C2_monotone_fill_w :
    ((reindexFfill [(35, (2:ℚ))] [10, 40, 70]).getD 2 none).isSome = true ∧
    (reindexFfill [(35, (2:ℚ))] [10, 40, 70]).getD 0 none = none ∧
    ((cbAlign [(35, (2:ℚ))] [10, 59, 70]).getD 2 none).isSome = true ∧
    (cbAlign [(35, (2:ℚ))] [10, 59, 70]).getD 0 none = none ∧
    (fxCol (some [(35, (2:ℚ))]) [10]).getD 0 none = none :=
  claim_C2_monotone_fill [(35, (2:ℚ))] [10, 40, 70] (by decide) 1 2 0 (by decide)
    (by decide) (by decide) (by decide) (by decide)
    [(35, (2:ℚ))] [10, 59, 70] (by decide) 1 2 0 (by decide) (by decide) (by decide)
    (by decide) (by decide)
    [(35, (2:ℚ))] [10] 0 (by decide) (by decide)

/-- C2 counterexample: the market path (monthly-mean resample followed by
forward-looking reindex, source lines 77-83) violates monotonic fill.
Daily observations at times 15 and 75 leave the middle 30-day period
empty, so the aligned series is defined at position 0 and undefined at
the later position 1. -/
theorem claim_C2_cx :
    (fxCol (some [(15, (100:ℚ)), (75, 120)]) [29, 59, 89]).getD 0 none = some 100 ∧
    (fxCol (some [(15, (100:ℚ)), (75, 120)]) [29, 59, 89]).getD 1 none = none := by
  constructor
  · norm_num [fxCol, resampleMean, meanOfMonth, monthOf, monthEndTs, reindexFfillOpt,
      lastLEOpt, List.range_succ]
  · norm_num [fxCol, resampleMean, meanOfMonth, monthOf, monthEndTs, reindexFfillOpt,
      lastLEOpt, List.range_succ]

/-! ### Claim C3: which series get the monthly-mean collapse -/

/-- C3 (amended): the monthly-mean collapse applies to the batch market
path (the FX-rate series): any period of the resample range that holds
observations is valued by their arithmetic mean.  The reference asset
price and the stock price are instead aligned directly (source lines
132-136 and 140-143): each grid point carries the raw observation with
the greatest timestamp at or before it, with no averaging. -/
theorem claim_C3_resample (raw : List (ℕ × ℚ)) (f l : ℕ × ℚ) (xs : List ℚ) (m : ℕ)
    (grid : List ℕ) (k : ℕ) (v : ℚ)
    (hf : raw.head? = some f) (hl : raw.getLast? = some l)
    (hm1 : monthOf f.1 ≤ m) (hm2 : m ≤ monthOf l.1)
    (hxs : xs = (raw.filter (fun p => monthOf p.1 == m)).map Prod.snd) (hne : xs ≠ [])
    (hsort : List.Pairwise (fun p q : ℕ × ℚ => p.1 ≤ q.1) raw)
    (hk : k < grid.length)
    (hv : (dailyCol (some raw) grid).getD k none = some v) :
    (resampleMean raw).getD (m - monthOf f.1) (0, none) =
      (monthEndTs m, some (xs.sum / (xs.length : ℚ))) ∧
    ∃ t, (t, v) ∈ raw ∧ t ≤ grid.getD k 0 ∧
      ∀ p ∈ raw, p.1 ≤ grid.getD k 0 → p.1 ≤ t := by
  constructor
  · unfold resampleMean
    rw [hf, hl]
    rw [getD_range_map _ _ _ _ (by omega)]
    have hmm : monthOf f.1 + (m - monthOf f.1) = m := by omega
    rw [hmm]
    unfold meanOfMonth
    rw [← hxs, if_neg hne]
  · simp only [dailyCol, reindexFfill] at hv
    rw [getD_map_of_lt _ _ _ 0 none hk] at hv
    simp only [lastLE] at hv
    rw [Option.map_eq_some'] at hv
    obtain ⟨p, hplast, hpv⟩ := hv
    have hpfilter := mem_of_getLast?_eq _ _ hplast
    rw [List.mem_filter] at hpfilter
    obtain ⟨hpraw, hple⟩ := hpfilter
    rw [decide_eq_true_eq] at hple
    refine ⟨p.1, ?_, hple, ?_⟩
    · rw [← hpv]
      simpa using hpraw
    · intro q hq hqle
      apply getLast?_ts_le _ (List.Pairwise.filter _ hsort) p hplast
      rw [List.mem_filter]
      refine ⟨hq, ?_⟩
      rw [decide_eq_true_eq]
      exact hqle

/-- C3 witness: observations 100 and 200 in the first period and 400 in
the second; the resampled first period is their mean, and the directly
aligned daily series at grid point 29 carries the last observation at
or before 29, namely 200. -/
theorem claim_C3_resample_w :
    (resampleMean [(10, (100:ℚ)), (20, 200), (40, 400)]).getD 0 (0, none) =
      (monthEndTs 0, some (([(100:ℚ), 200].sum) / (([(100:ℚ), 200].length : ℕ) : ℚ))) ∧
    ∃ t, (t, (200:ℚ)) ∈ [(10, (100:ℚ)), (20, 200), (40, 400)] ∧ t ≤ [29].getD 0 0 ∧
      ∀ p ∈ [(10, (100:ℚ)), (20, 200), (40, 400)], p.1 ≤ [29].getD 0 0 → p.1 ≤ t :=
  claim_C3_resample [(10, (100:ℚ)), (20, 200), (40, 400)] (10, 100) (40, 400)
    [(100:ℚ), 200] 0 [29] 0 200 rfl rfl (by decide) (by decide) (by decide) (by decide)
    (by decide) (by decide) rfl

/-- C3 counterexample: two observations 100 and 200 in one period.  The
code aligns the reference-asset and stock prices by last observation
(value 200 at the period end), not by the period mean (150) that the
claim asserts for all daily market-quote series. -/
theorem claim_C3_cx :
    dailyCol (some [(10, (100:ℚ)), (20, 200)]) [29] = [some 200] ∧
    fxCol (some [(10, (100:ℚ)), (20, 200)]) [29] = [some 150] ∧
    some (200:ℚ) ≠ some 150 := by
  refine ⟨by decide, ?_, by norm_num⟩
  norm_num [fxCol, resampleMean, meanOfMonth, monthOf, monthEndTs, reindexFfillOpt,
    lastLEOpt, List.range_succ]

/-! ### Claim C6: the derived ratio metric -/

/-- C6: the derived ratio equals `(a / b) / d` pointwise wherever both
inputs are defined, and wherever the pointwise division is undefined the
result is the last previously computed ratio value (undefined when no
ratio was computed before). -/
theorem claim_C6_ratio (a b : List (Option ℚ)) (d : ℚ) (i : ℕ)
    (ha : i < a.length) (hb : i < b.length) :
    (∀ x y, a.getD i none = some x → b.getD i none = some y →
      (ratioFfill a b d).getD i none = some (x / y / d)) ∧
    ((rawQuot a b d).getD i none = none →
      (ratioFfill a b d).getD i none = lastSome none ((rawQuot a b d).take i)) := by
  have hlen : i < (rawQuot a b d).length := by rw [length_rawQuot]; omega
  constructor
  · intro x y hx hy
    have hq : (rawQuot a b d).getD i none = some (x / y / d) := by
      simp only [rawQuot]
      rw [getD_map_of_lt _ _ _ none none (by rw [length_zipOpt]; omega)]
      simp only [zipOpt]
      rw [getD_zipWith_of_lt _ a b i none none none ha hb, hx, hy]
      rfl
    simp only [ratioFfill]
    rw [ffill_getD _ i hlen, List.take_succ, List.getElem?_eq_getElem hlen]
    rw [show (rawQuot a b d)[i] = some (x / y / d) from by
      rw [← List.getD_eq_getElem _ none hlen]; exact hq]
    simpa using lastSome_concat_some none ((rawQuot a b d).take i) (x / y / d)
  · intro hnone
    simp only [ratioFfill]
    rw [ffill_getD _ i hlen, List.take_succ, List.getElem?_eq_getElem hlen]
    rw [show (rawQuot a b d)[i] = none from by
      rw [← List.getD_eq_getElem _ none hlen]; exact hnone]
    simpa using lastSome_concat_none none ((rawQuot a b d).take i)

/-- C6 witness: with `A = [100, 110, NaN, 130]`, `B = [50, 55, 60, 65]`
and divisor 10, position 1 computes `110 / 55 / 10` and position 2,
where the division is undefined, carries the last computed value. -/
theorem claim_C6_ratio_w :
    (ratioFfill [some (100:ℚ), some 110, none, some 130]
      [some (50:ℚ), some 55, some 60, some 65] 10).getD 1 none =
      some ((110:ℚ) / 55 / 10) ∧
    (ratioFfill [some (100:ℚ), some 110, none, some 130]
      [some (50:ℚ), some 55, some 60, some 65] 10).getD 2 none =
      lastSome none ((rawQuot [some (100:ℚ), some 110, none, some 130]
        [some (50:ℚ), some 55, some 60, some 65] 10).take 2) :=
  ⟨(claim_C6_ratio [some (100:ℚ), some 110, none, some 130]
      [some (50:ℚ), some 55, some 60, some 65] 10 1 (by decide) (by decide)).1
      110 55 rfl rfl,
    (claim_C6_ratio [some (100:ℚ), some 110, none, some 130]
      [some (50:ℚ), some 55, some 60, some 65] 10 2 (by decide) (by decide)).2 rfl⟩

/-! ### Claim C7: FRED failure aborts the computation -/

/-- C7: if any fetch on the macro-data path raises, the engine returns
the absence signal `none` and no partial table. -/
theorem claim_C7_fred_abort (grid : List ℕ) (mkt : MarketFetches) (f : FredFetches)
    (m : ℤ) (h : fredFailed f) : getLiquidityData grid mkt f m = none := by
  obtain ⟨u1, u2, u3, u4, u5, u6, u7⟩ := f
  simp only [fredFailed] at h
  rcases h with h | h | h | h | h | h | h <;>
    cases u1 <;> cases u2 <;> cases u3 <;> cases u4 <;> cases u5 <;> cases u6 <;>
      cases u7 <;> simp_all [getLiquidityData, runFred]

/-- C7 witness: a failing M2 fetch makes the engine return `none`. -/
theorem claim_C7_fred_abort_w :
    getLiquidityData [29] (MarketFetches.mk none none none none none)
      (FredFetches.mk (Except.error ()) (Except.ok []) (Except.ok []) (Except.ok [])
        (Except.ok []) (Except.ok []) (Except.ok [])) 0 = none :=
  claim_C7_fred_abort [29] (MarketFetches.mk none none none none none)
    (FredFetches.mk (Except.error ()) (Except.ok []) (Except.ok []) (Except.ok [])
      (Except.ok []) (Except.ok []) (Except.ok [])) 0 (Or.inl rfl)

/-! ### Claim C8: market-ticker failure degrades gracefully -/

/-- C8: when any individual market-ticker fetch fails while the FRED
path succeeds, the engine still returns a table rather than aborting,
the affected FX or price column is entirely undefined, and an undefined
FX column propagates as undefined through the currency normalization of
each macro series paired with it (multiply or divide convention alike,
never defaulting to a rate of 1): a failed EURUSD fetch voids the euro
M2 and ECB-assets components, a failed JPY fetch voids the Japanese M2
and BOJ-assets components, a failed CNY fetch voids the Chinese M2
component, and failed BTC or MSTR fetches void those price columns. -/
theorem claim_C8_market_degrade (grid : List ℕ) (mkt : MarketFetches) (f : FredFetches)
    (fd : FredData) (m : ℤ) (hok : runFred f = some fd) :
    (mkt.eurusd = none →
      fxCol mkt.eurusd grid = grid.map (fun _ => none) ∧
      euValCol grid mkt fd = grid.map (fun _ => none) ∧
      ecbCol grid mkt fd = grid.map (fun _ => none)) ∧
    (mkt.jpy = none →
      fxCol mkt.jpy grid = grid.map (fun _ => none) ∧
      jpValCol grid mkt fd = grid.map (fun _ => none) ∧
      bojCol grid mkt fd = grid.map (fun _ => none)) ∧
    (mkt.cny = none →
      fxCol mkt.cny grid = grid.map (fun _ => none) ∧
      cnValCol grid mkt fd = grid.map (fun _ => none)) ∧
    (mkt.btc = none → btcCol grid mkt = grid.map (fun _ => none)) ∧
    (mkt.mstr = none → mstrPriceCol grid mkt = grid.map (fun _ => none)) ∧
    (getLiquidityData grid mkt f m).isSome = true := by
  refine ⟨?_, ?_, ?_, ?_, ?_, by simp [getLiquidityData, hok]⟩
  · intro h
    refine ⟨by rw [h]; rfl, ?_, ?_⟩
    · simp only [euValCol, h, fxCol]
      exact zipOpt_map_none _ _ _ (length_reindexFfill _ _)
    · simp only [ecbCol, h, fxCol]
      exact zipOpt_map_none _ _ _ (length_cbAlign _ _)
  · intro h
    refine ⟨by rw [h]; rfl, ?_, ?_⟩
    · simp only [jpValCol, h, fxCol]
      exact zipOpt_map_none _ _ _ (length_reindexFfill _ _)
    · simp only [bojCol, h, fxCol]
      exact zipOpt_map_none _ _ _ (length_cbAlign _ _)
  · intro h
    refine ⟨by rw [h]; rfl, ?_⟩
    simp only [cnValCol, h, fxCol]
    exact zipOpt_map_none _ _ _ (length_reindexFfill _ _)
  · intro h
    simp only [btcCol, h, dailyCol]
  · intro h
    simp only [mstrPriceCol, h, dailyCol]

/-- C8 witness: concrete engine run in which every market ticker failed
while all FRED fetches succeeded: every FX and price column and every
FX-paired normalized component is entirely undefined, and the engine
still returns a table. -/
theorem claim_C8_market_degrade_w :
    (fxCol none [29] = [none] ∧
      euValCol [29] (MarketFetches.mk none none none none none)
        (FredData.mk [] [] [] [] [] [] []) = [none] ∧
      ecbCol [29] (MarketFetches.mk none none none none none)
        (FredData.mk [] [] [] [] [] [] []) = [none]) ∧
    (fxCol none [29] = [none] ∧
      jpValCol [29] (MarketFetches.mk none none none none none)
        (FredData.mk [] [] [] [] [] [] []) = [none] ∧
      bojCol [29] (MarketFetches.mk none none none none none)
        (FredData.mk [] [] [] [] [] [] []) = [none]) ∧
    (fxCol none [29] = [none] ∧
      cnValCol [29] (MarketFetches.mk none none none none none)
        (FredData.mk [] [] [] [] [] [] []) = [none]) ∧
    btcCol [29] (MarketFetches.mk none none none none none) = [none] ∧
    mstrPriceCol [29] (MarketFetches.mk none none none none none) = [none] ∧
    (getLiquidityData [29] (MarketFetches.mk none none none none none)
      (FredFetches.mk (Except.ok []) (Except.ok []) (Except.ok []) (Except.ok [])
        (Except.ok []) (Except.ok []) (Except.ok [])) 0).isSome = true := by
  have h := claim_C8_market_degrade [29] (MarketFetches.mk none none none none none)
    (FredFetches.mk (Except.ok []) (Except.ok []) (Except.ok []) (Except.ok [])
      (Except.ok []) (Except.ok []) (Except.ok []))
    (FredData.mk [] [] [] [] [] [] []) 0 rfl
  simpa using h

/-! ### Claim C10: the composites are defined everywhere -/

/-- C10: at every grid point the central-bank-assets composite and the
pre-shift money-supply composite are numerically defined, and they
evaluate to 0 at points where every component is undefined, because the
zero substitution is applied to each component unconditionally. -/
theorem claim_C10_composites_defined (grid : List ℕ) (mkt : MarketFetches)
    (fd : FredData) (i : ℕ) (hi : i < grid.length) :
    ((m2SumCol grid mkt fd).getD i none).isSome = true ∧
    ((assetsCol grid mkt fd).getD i none).isSome = true ∧
    ((usValCol grid fd).getD i none = none → (euValCol grid mkt fd).getD i none = none →
      (jpValCol grid mkt fd).getD i none = none →
      (cnValCol grid mkt fd).getD i none = none →
      (m2SumCol grid mkt fd).getD i none = some 0) ∧
    ((fedCol grid fd).getD i none = none → (ecbCol grid mkt fd).getD i none = none →
      (bojCol grid mkt fd).getD i none = none →
      (assetsCol grid mkt fd).getD i none = some 0) := by
  have l1 : i < (usValCol grid fd).length := by rw [length_usValCol]; exact hi
  have l2 : i < (euValCol grid mkt fd).length := by rw [length_euValCol]; exact hi
  have l3 : i < (jpValCol grid mkt fd).length := by rw [length_jpValCol]; exact hi
  have l4 : i < (cnValCol grid mkt fd).length := by rw [length_cnValCol]; exact hi
  have l12 : i < (addF (usValCol grid fd) (euValCol grid mkt fd)).length := by
    rw [length_addF]; omega
  have l123 : i < (addF (addF (usValCol grid fd) (euValCol grid mkt fd))
      (jpValCol grid mkt fd)).length := by
    rw [length_addF]; omega
  have hm2 : (m2SumCol grid mkt fd).getD i none = some
      (((usValCol grid fd).getD i none).getD 0 + ((euValCol grid mkt fd).getD i none).getD 0 +
        ((jpValCol grid mkt fd).getD i none).getD 0 +
        ((cnValCol grid mkt fd).getD i none).getD 0) := by
    simp only [m2SumCol]
    rw [getD_addF _ _ i l123 l4, getD_addF _ _ i l12 l3, getD_addF _ _ i l1 l2]
    rfl
  have a1 : i < (fedCol grid fd).length := by rw [length_fedCol]; exact hi
  have a2 : i < (ecbCol grid mkt fd).length := by rw [length_ecbCol]; exact hi
  have a3 : i < (bojCol grid mkt fd).length := by rw [length_bojCol]; exact hi
  have a12 : i < (addF (fedCol grid fd) (ecbCol grid mkt fd)).length := by
    rw [length_addF]; omega
  have hassets : (assetsCol grid mkt fd).getD i none = some
      (((fedCol grid fd).getD i none).getD 0 + ((ecbCol grid mkt fd).getD i none).getD 0 +
        ((bojCol grid mkt fd).getD i none).getD 0) := by
    simp only [assetsCol]
    rw [getD_addF _ _ i a12 a3, getD_addF _ _ i a1 a2]
    rfl
  refine ⟨by rw [hm2]; rfl, by rw [hassets]; rfl, ?_, ?_⟩
  · intro h1 h2 h3 h4
    rw [hm2, h1, h2, h3, h4]
    norm_num
  · intro h1 h2 h3
    rw [hassets, h1, h2, h3]
    norm_num

/-- C10 witness: with every fetch empty, both composites are defined and
equal to 0 at the only grid point. -/
theorem claim_C10_composites_defined_w :
    ((m2SumCol [29] (MarketFetches.mk none none none none none)
      (FredData.mk [] [] [] [] [] [] [])).getD 0 none).isSome = true ∧
    ((assetsCol [29] (MarketFetches.mk none none none none none)
      (FredData.mk [] [] [] [] [] [] [])).getD 0 none).isSome = true ∧
    ((usValCol [29] (FredData.mk [] [] [] [] [] [] [])).getD 0 none = none →
      (euValCol [29] (MarketFetches.mk none none none none none)
        (FredData.mk [] [] [] [] [] [] [])).getD 0 none = none →
      (jpValCol [29] (MarketFetches.mk none none none none none)
        (FredData.mk [] [] [] [] [] [] [])).getD 0 none = none →
      (cnValCol [29] (MarketFetches.mk none none none none none)
        (FredData.mk [] [] [] [] [] [] [])).getD 0 none = none →
      (m2SumCol [29] (MarketFetches.mk none none none none none)
        (FredData.mk [] [] [] [] [] [] [])).getD 0 none = some 0) ∧
    ((fedCol [29] (FredData.mk [] [] [] [] [] [] [])).getD 0 none = none →
      (ecbCol [29] (MarketFetches.mk none none none none none)
        (FredData.mk [] [] [] [] [] [] [])).getD 0 none = none →
      (bojCol [29] (MarketFetches.mk none none none none none)
        (FredData.mk [] [] [] [] [] [] [])).getD 0 none = none →
      (assetsCol [29] (MarketFetches.mk none none none none none)
        (FredData.mk [] [] [] [] [] [] [])).getD 0 none = some 0) :=
  claim_C10_composites_defined [29] (MarketFetches.mk none none none none none)
    (FredData.mk [] [] [] [] [] [] []) 0 (by decide)

/-! ### Claim C9: shape of the canonical grid -/

/-- The master index written in closed form: the month-ends of the
`12 y` months preceding the month of `now`, plus the month-end of the
current month exactly when `now` is itself a month-end day. -/
lemma masterIndex_eq (now : Date) (y : ℕ) (hy : 1 ≤ y) (_hd1 : 1 ≤ now.day)
    (hd2 : now.day ≤ daysInMonth now.month) (hm : 12 * y ≤ now.month) :
    masterIndex now y =
      (List.range (if now.day = daysInMonth now.month then 12 * y + 1 else 12 * y)).map
        (fun k => monthEndDate (now.month - 12 * y + k)) := by
  show ((List.range (now.month + 1 - (now.month - 12 * y))).map
      (fun k => monthEndDate (now.month - 12 * y + k))).filter
      (fun e => dateLE ⟨now.month - 12 * y,
          min now.day (daysInMonth (now.month - 12 * y))⟩ e && dateLE e now) = _
  rw [show now.month + 1 - (now.month - 12 * y) = 12 * y + 1 from by omega]
  rw [List.range_succ, List.map_append, List.filter_append]
  have hbulk : ((List.range (12 * y)).map
      (fun k => monthEndDate (now.month - 12 * y + k))).filter
      (fun e => dateLE ⟨now.month - 12 * y,
          min now.day (daysInMonth (now.month - 12 * y))⟩ e && dateLE e now) =
      (List.range (12 * y)).map (fun k => monthEndDate (now.month - 12 * y + k)) := by
    apply List.filter_eq_self.mpr
    intro e he
    rw [List.mem_map] at he
    obtain ⟨k, hk, rfl⟩ := he
    rw [List.mem_range] at hk
    simp only [dateLE, monthEndDate, Bool.and_eq_true, Bool.or_eq_true,
      decide_eq_true_eq, beq_iff_eq]
    constructor
    · rcases Nat.eq_zero_or_pos k with rfl | hpos
      · right
        refine ⟨by omega, ?_⟩
        exact Nat.min_le_right now.day (daysInMonth (now.month - 12 * y))
      · left
        omega
    · left
      omega
  rw [hbulk]
  simp only [List.map_cons, List.map_nil]
  rw [show now.month - 12 * y + 12 * y = now.month from by omega]
  by_cases hc : now.day = daysInMonth now.month
  · rw [if_pos hc, List.range_succ, List.map_append]
    simp only [List.map_cons, List.map_nil]
    rw [show now.month - 12 * y + 12 * y = now.month from by omega]
    congr 1
    rw [List.filter_cons, List.filter_nil]
    have hpred : (dateLE ⟨now.month - 12 * y,
        min now.day (daysInMonth (now.month - 12 * y))⟩ (monthEndDate now.month) &&
        dateLE (monthEndDate now.month) now) = true := by
      simp only [dateLE, monthEndDate, Bool.and_eq_true, Bool.or_eq_true,
        decide_eq_true_eq, beq_iff_eq]
      exact ⟨Or.inl (by omega), Or.inr ⟨by trivial, by omega⟩⟩
    rw [hpred]
    simp
  · rw [if_neg hc, List.filter_cons, List.filter_nil]
    have hpred : (dateLE ⟨now.month - 12 * y,
        min now.day (daysInMonth (now.month - 12 * y))⟩ (monthEndDate now.month) &&
        dateLE (monthEndDate now.month) now) = false := by
      apply Bool.eq_false_iff.mpr
      intro h
      simp only [dateLE, monthEndDate, Bool.and_eq_true, Bool.or_eq_true,
        decide_eq_true_eq, beq_iff_eq] at h
      omega
    rw [hpred]
    simp

/-- C9: for every lookback in the allowed range and every valid current
date, the master monthly index has between `12 y` and `12 y + 1` entries
(so `floor(y * 12)` plus or minus one), and its entries are strictly
increasing with consecutive absolute month indices, i.e. one-month
spacing. -/
theorem claim_C9_grid (now : Date) (y : ℕ) (hy1 : 3 ≤ y) (hy2 : y ≤ 15)
    (hd1 : 1 ≤ now.day) (hd2 : now.day ≤ daysInMonth now.month)
    (hm : 12 * y ≤ now.month) (k : ℕ) (hk : k + 1 < (masterIndex now y).length) :
    (12 * y ≤ (masterIndex now y).length ∧ (masterIndex now y).length ≤ 12 * y + 1) ∧
    ((masterIndex now y).getD k (Date.mk 0 0)).month + 1 =
      ((masterIndex now y).getD (k + 1) (Date.mk 0 0)).month ∧
    dateLT ((masterIndex now y).getD k (Date.mk 0 0))
      ((masterIndex now y).getD (k + 1) (Date.mk 0 0)) = true := by
  have hME := masterIndex_eq now y (by omega) hd1 hd2 hm
  have hlen : (masterIndex now y).length =
      if now.day = daysInMonth now.month then 12 * y + 1 else 12 * y := by
    rw [hME]
    simp
  have hkL : k + 1 < (if now.day = daysInMonth now.month then 12 * y + 1 else 12 * y) := by
    rw [← hlen]
    exact hk
  refine ⟨⟨?_, ?_⟩, ?_, ?_⟩
  · rw [hlen]
    split <;> omega
  · rw [hlen]
    split <;> omega
  · rw [hME, getD_range_map _ _ _ _ (Nat.lt_of_succ_lt hkL), getD_range_map _ _ _ _ hkL]
    simp only [monthEndDate]
    omega
  · rw [hME, getD_range_map _ _ _ _ (Nat.lt_of_succ_lt hkL), getD_range_map _ _ _ _ hkL]
    simp only [dateLT, monthEndDate, Bool.or_eq_true, Bool.and_eq_true,
      decide_eq_true_eq, beq_iff_eq]
    exact Or.inl (by omega)

/-- C9 witness: an eight-year lookback from 2025-10-12 (absolute month
`2025 * 12 + 9`) gives a grid of between 96 and 97 month-ends with
one-month spacing. -/
theorem claim_C9_grid_w :
    (12 * 8 ≤ (masterIndex (Date.mk 24309 12) 8).length ∧
      (masterIndex (Date.mk 24309 12) 8).length ≤ 12 * 8 + 1) ∧
    ((masterIndex (Date.mk 24309 12) 8).getD 0 (Date.mk 0 0)).month + 1 =
      ((masterIndex (Date.mk 24309 12) 8).getD 1 (Date.mk 0 0)).month ∧
    dateLT ((masterIndex (Date.mk 24309 12) 8).getD 0 (Date.mk 0 0))
      ((masterIndex (Date.mk 24309 12) 8).getD 1 (Date.mk 0 0)) = true :=
  claim_C9_grid (Date.mk 24309 12) 8 (by decide) (by decide) (by decide) (by decide)
    (by decide) 0 (by decide)

end Liquidity
